import Mathlib

/-!
# Verification of the tpcds row-generation engine

Shallow embedding of the parts of the `tpcdsgen` crate that the verified
claims are about, together with theorems settling each claim.

Conventions:
* Rust `i32` / `i64` values are embedded as unbounded `Int` with explicit
  two's-complement truncation (`toI32`) exactly where the source casts or
  where wrapping arithmetic matters.
* Rust `%` (truncated remainder, sign of the dividend) is `Int.tmod`;
  Rust `/` on integers is `Int.tdiv`.
* Functions that can panic in Rust (remainder by zero, out-of-range index)
  return `Option` and yield `none` on the panicking path.
* A few support modules of the crate are not under `src/` (the random
  stream implementation, `Decimal`, `Date`, `ScalingInfo`, the calendar
  distribution).  Definitions for those carry a doc comment starting with
  `Modelled from the spec:` and follow the specification's wording, pinned
  by the concrete values the sources under `src/` assert about them.
-/

set_option maxHeartbeats 1000000
set_option maxRecDepth 100000

namespace Tpcds

/-! ## Random number stream (spec §4.1)

`random/stream.rs` (`RandomNumberStream` / `RandomNumberStreamImpl`) is not
under `src/`; the state and step below are modelled from the spec. -/

/-- Modelled from the spec: the stream's step is a linear congruential
generator producing a 32-bit value.  We use the reference generator's
multiplier `16807` and modulus `2^31 - 1` (increment `0`), so every
produced value is nonnegative and below `2^31`. -/
def lcgNext (seed : Nat) : Nat :=
  16807 * seed % 2147483647

/-- `lcgNext` iterated `n` times: the stream state after `n` draws. -/
def lcgIterate : Nat → Nat → Nat
  | 0, seed => seed
  | n + 1, seed => lcgIterate n (lcgNext seed)

/-- Modelled from the spec: stream state per §4.1 is
`(seed, seeds_used, seeds_per_row)` (the per-column initial seed does not
matter for any claim and is omitted). -/
structure RandomNumberStream where
  seed : Nat
  seedsUsed : Nat
  seedsPerRow : Nat
deriving Repr, DecidableEq

/-- Modelled from the spec: `next_random()` advances the LCG one step,
increments `seeds_used` and returns the new 32-bit value (as the `i64`
the Rust trait returns). -/
def RandomNumberStream.nextRandom (s : RandomNumberStream) :
    Int × RandomNumberStream :=
  ((lcgNext s.seed : Nat),
    { s with seed := lcgNext s.seed, seedsUsed := s.seedsUsed + 1 })

/-- Two's-complement truncation of an unbounded integer into the `i32`
range `[-2^31, 2^31)`: the semantics of Rust's `as i32` cast and of
wrapping `i32` arithmetic. -/
def toI32 (x : Int) : Int :=
  (x + 2 ^ 31) % 2 ^ 32 - 2 ^ 31

/-! ## `RandomValueGenerator` (src: `random/generator.rs`) -/

/-- From `random/generator.rs`, `generate_uniform_random_int`:
`let mut result = random_number_stream.next_random() as i32;
result %= max - min + 1; result += min; result`.
All arithmetic is `i32` (wrapping in release mode); `none` models the Rust
`%` panics (divisor zero, and `i32::MIN % -1`). -/
def generateUniformRandomInt (min max : Int) (s : RandomNumberStream) :
    Option (Int × RandomNumberStream) :=
  let p := s.nextRandom
  let xi := toI32 p.1
  let range := toI32 (max - min + 1)
  if range = 0 then none
  else if xi = -2 ^ 31 ∧ range = -1 then none
  else some (toI32 (Int.tmod xi range + min), p.2)

/-- From `random/generator.rs`, `generate_uniform_random_key`:
the draw is truncated to `i32`, the range `max - min + 1` is computed over
`i64` and then cast to `i32`, `min` is cast to `i32`, the remainder and the
addition are `i32` operations, and the `i32` result is sign-extended back
to `i64`.  (The comment in the source says: "truncating long to int copies
behavior of c code".) -/
def generateUniformRandomKey (min max : Int) (s : RandomNumberStream) :
    Option (Int × RandomNumberStream) :=
  let p := s.nextRandom
  let xi := toI32 p.1
  let range := toI32 (max - min + 1)
  if range = 0 then none
  else if xi = -2 ^ 31 ∧ range = -1 then none
  else some (toI32 (Int.tmod xi range + toI32 min), p.2)

/-- The uniform-key computation as the specification words it: "uniform key
`[lo, hi]` over i64: same but widened", i.e. the modulus and the addition
of `min` carried out over `i64` so the result is exact for bounds outside
the `i32` range.  Kept for comparison against
`generateUniformRandomKey` (which is what the source actually does). -/
def uniformKeyWidenedSpec (min max : Int) (s : RandomNumberStream) :
    Option (Int × RandomNumberStream) :=
  let p := s.nextRandom
  let xi := toI32 p.1
  let range := max - min + 1
  if range = 0 then none
  else some (Int.tmod xi range + min, p.2)

/-- From `random/generator.rs`, `generate_uniform_random_charset`'s
character loop (`for i in 0..max { let index = ...; if i < length { push } }`):
`fuel` counts the remaining iterations (`max - i`), `i` is the loop
variable.  `none` models an out-of-range index (possible only for an empty
character set, where the index draw's range is zero). -/
def charsetLoop (chars : List Char) (length : Int) :
    Nat → Int → RandomNumberStream → List Char →
    Option (List Char × RandomNumberStream)
  | 0, _, s, acc => some (acc.reverse, s)
  | fuel + 1, i, s, acc =>
    match generateUniformRandomInt 0 ((chars.length : Int) - 1) s with
    | none => none
    | some (index, s') =>
      if i < length then
        match chars.get? index.toNat with
        | none => none
        | some c => charsetLoop chars length fuel (i + 1) s' (c :: acc)
      else charsetLoop chars length fuel (i + 1) s' acc

/-- From `random/generator.rs`, `generate_random_charset`: draw a length in
`[min, max]`, then loop `i` from `0` to `max` (exclusive), drawing one
character index per iteration and keeping the character only while
`i < length`.  A negative drawn length is `none`: the source runs
`String::with_capacity(length as usize)`, and a negative `i32` cast to
`usize` exceeds `isize::MAX`, so `with_capacity` panics with a capacity
overflow.  (The `ALPHA_NUMERIC` fast path in the source runs the same
logic over a byte array.) -/
def generateRandomCharset (chars : List Char) (min max : Int)
    (s : RandomNumberStream) : Option (List Char × RandomNumberStream) :=
  match generateUniformRandomInt min max s with
  | none => none
  | some (length, s1) =>
    if length < 0 then none
    else charsetLoop chars length max.toNat 0 s1 []

/-! ## Row-boundary seed discipline (src: `row/abstract_row_generator.rs`) -/

/-- One filler draw of the seed-consumer pass: the body of the `while` loop
in `consume_remaining_seeds_for_row` calls
`RandomValueGenerator::generate_uniform_random_int(1, 100, stream)` and
keeps only the stream effect.  The `getD s` fallback corresponds to the
`none` branch of the uniform draw, which is unreachable here (the range is
the literal `100`). -/
def fillerDraw (s : RandomNumberStream) : RandomNumberStream :=
  ((generateUniformRandomInt 1 100 s).map Prod.snd).getD s

/-- From `row/abstract_row_generator.rs`, the per-stream body of
`consume_remaining_seeds_for_row`: filler draws while
`seeds_used < seeds_per_row`, then `reset_seeds_used`. -/
def consumeStream (s : RandomNumberStream) : RandomNumberStream :=
  if s.seedsUsed < s.seedsPerRow then consumeStream (fillerDraw s)
  else { s with seedsUsed := 0 }
termination_by s.seedsPerRow - s.seedsUsed
decreasing_by
  have h1 : generateUniformRandomInt 1 100 s =
      some (toI32 (Int.tmod (toI32 s.nextRandom.1) 100 + 1), s.nextRandom.2) := by
    rw [generateUniformRandomInt]
    have h0 : toI32 (100 - 1 + 1) = 100 := by norm_num [toI32]
    simp only [h0]
    norm_num
  rw [fillerDraw, h1]
  show s.seedsPerRow - (s.seedsUsed + 1) < s.seedsPerRow - s.seedsUsed
  omega

/-- From `row/abstract_row_generator.rs`,
`consume_remaining_seeds_for_row`: the generator runs the filler pass over
every stream it owns (`random_number_streams` is embedded as a list). -/
def consumeRemainingSeedsForRow (streams : List RandomNumberStream) :
    List RandomNumberStream :=
  streams.map consumeStream

/-- `n` consecutive `next_random()` draws on a stream: the only effect row
generation can have on one of the generator's streams within a row. -/
def drawN : Nat → RandomNumberStream → RandomNumberStream
  | 0, s => s
  | n + 1, s => drawN n s.nextRandom.2

/-! ## Tables and scaling (src: `table.rs`, `config/scaling.rs`) -/

/-- The table enum of `table.rs` (the 25 base tables plus the `s_store`
source table).  `config::Table` itself is not under `src/`; per
`config/scaling.rs` it mirrors this enum for every table that scaling
supports, so we use a single table type. -/
inductive Table where
  | callCenter
  | catalogPage
  | catalogReturns
  | catalogSales
  | warehouse
  | shipMode
  | reason
  | incomeBand
  | householdDemographics
  | customerDemographics
  | customerAddress
  | customer
  | dateDim
  | timeDim
  | item
  | promotion
  | store
  | storeReturns
  | storeSales
  | webPage
  | webReturns
  | webSales
  | webSite
  | dbgenVersion
  | inventory
  | sStore
deriving Repr, DecidableEq, Fintype

/-- From `table.rs` `get_table_flags` (first flag of each `TableFlags`
entry): which tables keep SCD history. -/
def Table.keepsHistory : Table → Bool
  | .callCenter => true
  | .item => true
  | .store => true
  | .webPage => true
  | .webSite => true
  | _ => false

/-- Scaling models of `scaling_info.rs` (declared there; the file is not
under `src/` but the model names appear throughout `table.rs`). -/
inductive ScalingModel where
  | staticModel
  | linear
  | logarithmic
deriving Repr, DecidableEq

/-- The `(multiplier, model, row_counts)` triple of a `ScalingInfo`
(`scaling_info.rs`; the update-percentage argument is unused by the
claims). -/
structure ScalingInfo where
  multiplier : Nat
  model : ScalingModel
  rowCounts : List Int
deriving Repr, DecidableEq

/-- From `table.rs` `get_scaling_info`: the literal per-table scaling data. -/
def Table.getScalingInfo : Table → ScalingInfo
  | .callCenter =>
    ⟨0, .logarithmic, [0, 3, 12, 15, 18, 21, 24, 27, 30, 30]⟩
  | .catalogPage =>
    ⟨0, .staticModel, [0, 11718, 12000, 20400, 26000, 30000, 36000, 40000, 46000, 50000]⟩
  | .catalogReturns =>
    ⟨4, .linear, [0, 16, 160, 1600, 4800, 16000, 48000, 160000, 480000, 1600000]⟩
  | .catalogSales =>
    ⟨4, .linear, [0, 16, 160, 1600, 4800, 16000, 48000, 160000, 480000, 1600000]⟩
  | .warehouse =>
    ⟨0, .logarithmic, [0, 5, 10, 15, 17, 20, 22, 25, 27, 30]⟩
  | .shipMode =>
    ⟨0, .staticModel, [0, 20, 20, 20, 20, 20, 20, 20, 20, 20]⟩
  | .reason =>
    ⟨0, .logarithmic, [0, 35, 45, 55, 60, 65, 67, 70, 72, 75]⟩
  | .incomeBand =>
    ⟨0, .staticModel, [0, 20, 20, 20, 20, 20, 20, 20, 20, 20]⟩
  | .householdDemographics =>
    ⟨0, .staticModel, [0, 7200, 7200, 7200, 7200, 7200, 7200, 7200, 7200, 7200]⟩
  | .customerDemographics =>
    ⟨2, .staticModel, [0, 19208, 19208, 19208, 19208, 19208, 19208, 19208, 19208, 19208]⟩
  | .customerAddress =>
    ⟨3, .logarithmic, [0, 50, 250, 1000, 2500, 6000, 15000, 32500, 40000, 50000]⟩
  | .customer =>
    ⟨3, .logarithmic, [0, 100, 500, 2000, 5000, 12000, 30000, 65000, 80000, 100000]⟩
  | .dateDim =>
    ⟨0, .staticModel, [0, 73049, 73049, 73049, 73049, 73049, 73049, 73049, 73049, 73049]⟩
  | .timeDim =>
    ⟨0, .staticModel, [0, 86400, 86400, 86400, 86400, 86400, 86400, 86400, 86400, 86400]⟩
  | .item =>
    ⟨3, .logarithmic, [0, 9, 51, 102, 132, 150, 180, 201, 231, 251]⟩
  | .promotion =>
    ⟨0, .logarithmic, [0, 300, 500, 1000, 1300, 1500, 1800, 2000, 2300, 2500]⟩
  | .store =>
    ⟨0, .logarithmic, [0, 6, 51, 201, 402, 501, 675, 750, 852, 951]⟩
  | .storeReturns =>
    ⟨0, .staticModel, [0, 0, 0, 0, 0, 0, 0, 0, 0, 0]⟩
  | .storeSales =>
    ⟨4, .linear, [0, 24, 240, 2400, 7200, 24000, 72000, 240000, 720000, 2400000]⟩
  | .webPage =>
    ⟨0, .logarithmic, [0, 30, 100, 1020, 1302, 1500, 1800, 2001, 2301, 2502]⟩
  | .webReturns =>
    ⟨3, .linear, [0, 60, 600, 6000, 18000, 60000, 180000, 600000, 1800000, 6000000]⟩
  | .webSales =>
    ⟨3, .linear, [0, 60, 600, 6000, 18000, 60000, 180000, 600000, 1800000, 6000000]⟩
  | .webSite =>
    ⟨0, .logarithmic, [0, 15, 21, 12, 21, 27, 33, 39, 42, 48]⟩
  | .dbgenVersion =>
    ⟨0, .staticModel, [0, 1, 1, 1, 1, 1, 1, 1, 1, 1]⟩
  | .inventory =>
    ⟨0, .staticModel, [0, 0, 0, 0, 0, 0, 0, 0, 0, 0]⟩
  | .sStore =>
    ⟨0, .staticModel, [0, 0, 0, 0, 0, 0, 0, 0, 0, 0]⟩

/-- Modelled from the spec: the nine defined scale factors the ten-entry
`row_counts` vectors are indexed by (index `0` is unused).  The 1-3 decade
pattern is pinned by the linear tables' data in `table.rs`
(e.g. store_sales `2400 @ 100`, `7200 @ 300`). -/
def definedScale : Nat → ℚ
  | 1 => 1
  | 2 => 10
  | 3 => 100
  | 4 => 300
  | 5 => 1000
  | 6 => 3000
  | 7 => 10000
  | 8 => 30000
  | 9 => 100000
  | _ => 0

/-- Modelled from the spec: the smallest defined scale slot whose scale
factor is at least the requested scale (for scales in `(0, 100000]`). -/
def scaleSlot (scale : ℚ) : Nat :=
  if scale ≤ 1 then 1
  else if scale ≤ 10 then 2
  else if scale ≤ 100 then 3
  else if scale ≤ 300 then 4
  else if scale ≤ 1000 then 5
  else if scale ≤ 3000 then 6
  else if scale ≤ 10000 then 7
  else if scale ≤ 30000 then 8
  else 9

/-- Modelled from the spec: `ScalingInfo::get_row_count_for_scale`
(`scaling_info.rs` is not under `src/`).  Spec §3.3: `Static` reads the
bucket entry, `Linear` and `Logarithmic` interpolate the `row_counts`
vector between the adjacent defined scales, and sub-1 scales take the
matching fraction of the 1 GB count (`Static` tables keep their full
size).  The interpolation (truncated integer result) is pinned by the
row counts the tests in `config/scaling.rs` assert:
customer `144_000 @ SF 2`, store `22 @ SF 2`, customer `10_000 @ SF 0.1`.
Out-of-domain scales give `none` (the Rust side returns an error, which
`get_row_count` turns into `0` via `unwrap_or`).
`interpolate` is the linear interpolation between two adjacent defined
scales, truncated to an integer. -/
def interpolate (lo hi : Int) (sLo sHi scale : ℚ) : Int :=
  lo + ⌊(scale - sLo) * ((hi - lo : Int) : ℚ) / (sHi - sLo)⌋

/-- Modelled from the spec: see `interpolate`. -/
def ScalingInfo.getRowCountForScale (info : ScalingInfo) (scale : ℚ) :
    Option Int :=
  if scale ≤ 0 ∨ 100000 < scale then none
  else if scale < 1 then
    if info.model = .staticModel then some (info.rowCounts.getD 1 0)
    else some ⌊scale * (info.rowCounts.getD 1 0 : ℚ)⌋
  else if scale = definedScale (scaleSlot scale) then
    some (info.rowCounts.getD (scaleSlot scale) 0)
  else if info.model = .staticModel then
    some (info.rowCounts.getD (scaleSlot scale) 0)
  else
    some (interpolate (info.rowCounts.getD (scaleSlot scale - 1) 0)
      (info.rowCounts.getD (scaleSlot scale) 0)
      (definedScale (scaleSlot scale - 1)) (definedScale (scaleSlot scale))
      scale)

/-- Modelled from the spec: `Date::JULIAN_DATE_MINIMUM`, the Julian day of
the reference data-range start 1998-01-01 (`types/date.rs` is not under
`src/`). -/
def julianDateMinimum : Int := 2450815

/-- Modelled from the spec: `Date::JULIAN_DATE_MAXIMUM`, the Julian day of
the reference data-range end 2002-12-31.  The pair of constants is pinned
by the inventory test in `config/scaling.rs`, which requires 261 inventory
weeks. -/
def julianDateMaximum : Int := 2452640

/-- From `config/scaling.rs` `get_row_count` for non-inventory tables:
base count from the scaling info (`unwrap_or(0)` on error), times
`(keeps_history ? 2 : 1) * 10^multiplier`.  `none` models the panic on
source tables (`to_meta_table`). -/
def getRowCountBase (t : Table) (scale : ℚ) : Option Int :=
  if t = .sStore then none
  else
    some ((t.getScalingInfo.getRowCountForScale scale).getD 0 *
      ((if t.keepsHistory then 2 else 1) * 10 ^ t.getScalingInfo.multiplier))

/-- From `config/scaling.rs` `get_id_count`, the history-table reduction of
a row count to a unique-id count:
`(row_count / 6) * 3` plus `{1 ↦ 1, 2|3 ↦ 2, 4|5 ↦ 3, _ ↦ 0}` of
`row_count % 6` (Rust truncated division and remainder). -/
def idCountFromRowCount (keepsHistory : Bool) (rowCount : Int) : Int :=
  if keepsHistory then
    let uniqueCount := Int.tdiv rowCount 6 * 3
    let m := Int.tmod rowCount 6
    if m = 1 then uniqueCount + 1
    else if m = 2 ∨ m = 3 then uniqueCount + 2
    else if m = 4 ∨ m = 5 then uniqueCount + 3
    else uniqueCount
  else rowCount

/-- From `config/scaling.rs` `scale_inventory`:
`n_days = JULIAN_DATE_MAXIMUM - JULIAN_DATE_MINIMUM; n_weeks = (n_days + 7) / 7`. -/
def inventoryWeeks : Int :=
  Int.tdiv (julianDateMaximum - julianDateMinimum + 7) 7

/-- From `config/scaling.rs` `scale_inventory`:
`get_id_count(ITEM) * get_row_count(WAREHOUSE) * n_weeks`
(item and warehouse take the non-inventory row-count path). -/
def scaleInventory (scale : ℚ) : Option Int :=
  (getRowCountBase .item scale).bind fun itemRowCount =>
    (getRowCountBase .warehouse scale).map fun warehouseRowCount =>
      idCountFromRowCount Table.item.keepsHistory itemRowCount *
        warehouseRowCount * inventoryWeeks

/-- From `config/scaling.rs` `Scaling::get_row_count`: inventory is the
special dynamically computed case, every other table uses its scaling
info. -/
def getRowCount (t : Table) (scale : ℚ) : Option Int :=
  if t = .inventory then scaleInventory scale
  else getRowCountBase t scale

/-- From `config/scaling.rs` `Scaling::get_id_count`: reduce
`get_row_count` for history-keeping tables, pass it through otherwise. -/
def getIdCount (t : Table) (scale : ℚ) : Option Int :=
  (getRowCount t scale).map (idCountFromRowCount t.keepsHistory)

/-! ## Dates and the calendar distribution (spec §3.1, §4.2)

`types/date.rs` and `distribution/calendar_distribution.rs` are not under
`src/`; the calendar conversion below is the standard Gregorian
calendar arithmetic the spec's `Date` describes, and the calendar weight
table is kept abstract (it is parsed from an embedded `.dst` asset). -/

/-- A calendar date `(year, month, day)`. -/
structure DateYMD where
  year : Int
  month : Int
  day : Int
deriving Repr, DecidableEq

/-- Modelled from the spec: `Date::from_julian_days` — the standard
Julian-day-number to Gregorian conversion (Fliegel–van Flandern), with
floor division (all intermediate values are nonnegative on the engine's
date range). -/
def fromJulianDays (julianDays : Int) : DateYMD :=
  let a := julianDays + 32044
  let b := Int.ediv (4 * a + 3) 146097
  let c := a - Int.ediv (146097 * b) 4
  let d := Int.ediv (4 * c + 3) 1461
  let e := c - Int.ediv (1461 * d) 4
  let m := Int.ediv (5 * e + 2) 153
  { year := 100 * b + d - 4800 + Int.ediv m 10
    month := m + 3 - 12 * Int.ediv m 10
    day := e - Int.ediv (153 * m + 2) 5 + 1 }

/-- Modelled from the spec: `Date::is_leap_year`, the Gregorian leap-year
rule. -/
def isLeapYear (year : Int) : Bool :=
  year % 4 = 0 ∧ (year % 100 ≠ 0 ∨ year % 400 = 0)

/-- Cumulative day counts before each month in a non-leap year
(index 1..12). -/
def daysBeforeMonth (month : Int) : Int :=
  [0, 0, 31, 59, 90, 120, 151, 181, 212, 243, 273, 304, 334].getD month.toNat 0

/-- Modelled from the spec: `CalendarDistribution::get_index_for_date`,
the day-of-year of a date (1-based; the weight table has one entry per
day of the year). -/
def getIndexForDate (date : DateYMD) : Int :=
  daysBeforeMonth date.month + date.day +
    (if isLeapYear date.year ∧ 2 < date.month then 1 else 0)

/-- The two weight variants of the calendar distribution used for sales
(`CalendarWeights::Sales` / `CalendarWeights::SalesLeapYear`). -/
inductive CalendarWeights where
  | sales
  | salesLeapYear
deriving Repr, DecidableEq

/-- Modelled from the spec: the parsed calendar distribution, abstracted
over the embedded `.dst` weight data — a maximum weight and a per-day
weight for each variant. -/
structure CalendarData where
  maxWeight : CalendarWeights → Int
  weightForDayNumber : Int → CalendarWeights → Int

/-- From `config/scaling.rs` `get_row_count_for_date`, the `row_count`
selection: the three sales tables use their own row count, inventory uses
`warehouse row count × item id count`, and every other table panics
(`none`). -/
def dateRowCountBasis (t : Table) (scale : ℚ) : Option Int :=
  match t with
  | .storeSales => getRowCount .storeSales scale
  | .catalogSales => getRowCount .catalogSales scale
  | .webSales => getRowCount .webSales scale
  | .inventory =>
    (getRowCount .warehouse scale).bind fun wh =>
      (getIdCount .item scale).map fun it => wh * it
  | _ => none

/-- From `config/scaling.rs` `Scaling::get_row_count_for_date`: pick the
leap or non-leap sales weights for the date's year, then compute
`(row_count * day_weight + calendar_total / 2) / calendar_total` with
`calendar_total = max_weight * 5` (5 years of data), in `i64` arithmetic.
`none` models the panic on unsupported tables and on a zero divisor. -/
def getRowCountForDate (cal : CalendarData) (t : Table) (julianDate : Int)
    (scale : ℚ) : Option Int :=
  (dateRowCountBasis t scale).bind fun rowCount =>
    let date := fromJulianDays julianDate
    let weights :=
      if isLeapYear date.year then CalendarWeights.salesLeapYear
      else CalendarWeights.sales
    let calendarTotal := cal.maxWeight weights * 5
    let dayIndex := getIndexForDate date
    let dayWeight := cal.weightForDayNumber dayIndex weights
    if calendarTotal = 0 then none
    else some (Int.tdiv (rowCount * dayWeight + Int.tdiv calendarTotal 2) calendarTotal)

/-! ## Decimals and pricing (src: `types/pricing.rs`; spec §3.1)

`types/decimal.rs` is not under `src/`.  Per the spec, a `Decimal` is
`(number: i64, precision: u8)` with exact base-10 arithmetic and no
floating point; addition and subtraction align both operands to the
larger precision without rounding.  Division cannot be exact in fixed
precision; the modelled rounding choice does not matter for any claim
(the pricing identity below holds for every value of the drawn
percentages). -/

/-- Modelled from the spec: `(number, precision)` with value
`number / 10^precision`. -/
structure Decimal where
  number : Int
  precision : Nat
deriving Repr, DecidableEq

namespace Decimal

/-- The rational value a decimal denotes. -/
def toRat (d : Decimal) : ℚ :=
  (d.number : ℚ) / 10 ^ d.precision

/-- Modelled from the spec: `Decimal::from_integer`. -/
def fromInteger (n : Int) : Decimal := ⟨n, 0⟩

/-- The numerator of `d` rescaled to precision `p` (for `p ≥ d.precision`). -/
def scaleTo (d : Decimal) (p : Nat) : Int :=
  d.number * 10 ^ (p - d.precision)

/-- Modelled from the spec: exact addition, aligning to the larger
precision. -/
def add2 (a b : Decimal) : Decimal :=
  let p := max a.precision b.precision
  ⟨a.scaleTo p + b.scaleTo p, p⟩

/-- Modelled from the spec: exact subtraction, aligning to the larger
precision. -/
def subtract (a b : Decimal) : Decimal :=
  let p := max a.precision b.precision
  ⟨a.scaleTo p - b.scaleTo p, p⟩

/-- Modelled from the spec: negation. -/
def negate (d : Decimal) : Decimal := ⟨-d.number, d.precision⟩

/-- Modelled from the spec: exact multiplication (precisions add). -/
def multiply (a b : Decimal) : Decimal :=
  ⟨a.number * b.number, a.precision + b.precision⟩

/-- Modelled from the spec: division at the larger operand precision with
the quotient truncated (Rust `/`). -/
def divide (a b : Decimal) : Decimal :=
  let p := max a.precision b.precision
  ⟨Int.tdiv (a.number * 10 ^ (p + b.precision - a.precision)) b.number, p⟩

/-- `Decimal::ZERO` (0.00). -/
def ZERO : Decimal := ⟨0, 2⟩

/-- `Decimal::ONE` (1.00). -/
def ONE : Decimal := ⟨100, 2⟩

/-- `Decimal::ONE_HALF` (0.50). -/
def ONE_HALF : Decimal := ⟨50, 2⟩

/-- `Decimal::ONE_HUNDRED` (100.00). -/
def ONE_HUNDRED : Decimal := ⟨10000, 2⟩

end Decimal

/-- From `random/generator.rs`, `generate_uniform_random_decimal`: the
result precision is the smaller operand precision; the drawn `i64` is
reduced modulo `max.number - min.number + 1` (Rust `%`, sign of the
dividend) and offset by `min.number`.  `none` models the zero-divisor
panic. -/
def generateUniformRandomDecimal (min max : Decimal)
    (s : RandomNumberStream) : Option (Decimal × RandomNumberStream) :=
  let precision :=
    if min.precision < max.precision then min.precision else max.precision
  let p := s.nextRandom
  let range := max.number - min.number + 1
  if range = 0 then none
  else some (⟨Int.tmod p.1 range + min.number, precision⟩, p.2)

/-- The pricing record of `types/pricing.rs` (`Pricing`): 23 fields of a
line item's economics. -/
structure Pricing where
  wholesaleCost : Decimal
  listPrice : Decimal
  salesPrice : Decimal
  quantity : Int
  extDiscountAmount : Decimal
  extSalesPrice : Decimal
  extWholesaleCost : Decimal
  extListPrice : Decimal
  taxPercent : Decimal
  extTax : Decimal
  couponAmount : Decimal
  shipCost : Decimal
  extShipCost : Decimal
  netPaid : Decimal
  netPaidIncludingTax : Decimal
  netPaidIncludingShipping : Decimal
  netPaidIncludingShippingAndTax : Decimal
  netProfit : Decimal
  refundedCash : Decimal
  reversedCharge : Decimal
  storeCredit : Decimal
  fee : Decimal
  netLoss : Decimal
deriving Repr, DecidableEq

/-- From `types/pricing.rs`, `generate_pricing_for_returns_table`: copy
wholesale/list/sales/tax/discount/coupon from the sale, recompute the
`ext_*` aggregates with the return quantity, draw a shipping fraction, a
cash percentage in `[0, 100]` and a credit percentage in `[1, 100]`,
allocate `refunded_cash` and `reversed_charge`, let `store_credit` be the
balance `net_paid - reversed_charge - refunded_cash`, draw a fee in
`[0.50, 100.00]`, and compute `net_loss`.  The four stream draws happen in
exactly the source's order. -/
def generatePricingForReturnsTable (s : RandomNumberStream) (quantity : Int)
    (basePricing : Pricing) : Option (Pricing × RandomNumberStream) :=
  (generateUniformRandomDecimal Decimal.ZERO Decimal.ONE_HALF s).bind
    fun shipdraw =>
  (generateUniformRandomInt 0 100 shipdraw.2).bind fun cashdraw =>
  (generateUniformRandomInt 1 100 cashdraw.2).bind fun creditdraw =>
  (generateUniformRandomDecimal Decimal.ONE_HALF Decimal.ONE_HUNDRED
      creditdraw.2).bind fun feedraw =>
  let wholesaleCost := basePricing.wholesaleCost
  let listPrice := basePricing.listPrice
  let salesPrice := basePricing.salesPrice
  let taxPercent := basePricing.taxPercent
  let extDiscountAmount := basePricing.extDiscountAmount
  let couponAmount := basePricing.couponAmount
  let decimalQuantity := Decimal.fromInteger quantity
  let extWholesaleCost := Decimal.multiply decimalQuantity wholesaleCost
  let extListPrice := Decimal.multiply listPrice decimalQuantity
  let extSalesPrice := Decimal.multiply salesPrice decimalQuantity
  let netPaid := extSalesPrice
  let shipping := shipdraw.1
  let shipCost := Decimal.multiply listPrice shipping
  let extShipCost := Decimal.multiply shipCost decimalQuantity
  let netPaidIncludingShipping := Decimal.add2 netPaid extShipCost
  let extTax := Decimal.multiply netPaid taxPercent
  let netPaidIncludingTax := Decimal.add2 netPaid extTax
  let netPaidIncludingShippingAndTax :=
    Decimal.add2 netPaidIncludingShipping extTax
  let netProfit := Decimal.subtract netPaid extWholesaleCost
  let cashPercentage := Decimal.fromInteger cashdraw.1
  let refundedCash :=
    Decimal.multiply (Decimal.divide cashPercentage Decimal.ONE_HUNDRED) netPaid
  let creditPercent :=
    Decimal.divide (Decimal.fromInteger creditdraw.1) Decimal.ONE_HUNDRED
  let paidMinusRefunded := Decimal.subtract netPaid refundedCash
  let reversedCharge := Decimal.multiply creditPercent paidMinusRefunded
  let storeCredit :=
    Decimal.subtract (Decimal.subtract netPaid reversedCharge) refundedCash
  let fee := feedraw.1
  let netLoss :=
    Decimal.add2
      (Decimal.subtract
        (Decimal.subtract
          (Decimal.subtract netPaidIncludingShippingAndTax storeCredit)
          refundedCash)
        reversedCharge)
      fee
  some
    ({ wholesaleCost := wholesaleCost
       listPrice := listPrice
       salesPrice := salesPrice
       quantity := quantity
       extDiscountAmount := extDiscountAmount
       extSalesPrice := extSalesPrice
       extWholesaleCost := extWholesaleCost
       extListPrice := extListPrice
       taxPercent := taxPercent
       extTax := extTax
       couponAmount := couponAmount
       shipCost := shipCost
       extShipCost := extShipCost
       netPaid := netPaid
       netPaidIncludingTax := netPaidIncludingTax
       netPaidIncludingShipping := netPaidIncludingShipping
       netPaidIncludingShippingAndTax := netPaidIncludingShippingAndTax
       netProfit := netProfit
       refundedCash := refundedCash
       reversedCharge := reversedCharge
       storeCredit := storeCredit
       fee := fee
       netLoss := netLoss }, feedraw.2)

/-! ## Fact-table order grouping (src: `row/store_sales_row_generator.rs`,
`row/catalog_sales_row_generator.rs`, `row/web_sales_row_generator.rs`)

The grouping behavior of `generate_row_and_child_rows` depends only on the
`remaining_line_items` counter, the order-info ticket/order number, and
the stream of the column the per-order line-item count is drawn from
(`SsTicketNumber` / `CsOrderNumber` / `WsOrderNumber`).  Every other field
of the three generators (join keys, null bitmap, pricing, item
permutation, returns, the catalog date cursor) draws from other columns'
streams and leaves these three components untouched, so the embedding
below carries exactly them. -/

/-- The grouping-relevant state of a sales generator: its
`remaining_line_items` counter (`0` on a fresh generator), the current
order's ticket/order number, and the stream the line-item count is drawn
from. -/
structure SalesOrderState where
  remainingLineItems : Int
  ticketNumber : Int
  lineItemsStream : RandomNumberStream
deriving Repr, DecidableEq

/-- One call of `generate_row_and_child_rows(row_number)`, projected onto
the grouping state: when `remaining_line_items == 0` a new order starts
(the ticket/order number becomes `row_number` and `remaining_line_items`
is drawn uniformly from `[minItems, maxItems]`); the emitted row carries
the order's ticket number; then the counter is decremented and
`end_of_parent` is `remaining_line_items == 0`. -/
def salesOrderStep (minItems maxItems rowNumber : Int)
    (st : SalesOrderState) : Option ((Int × Bool) × SalesOrderState) :=
  (if st.remainingLineItems = 0 then
      (generateUniformRandomInt minItems maxItems st.lineItemsStream).map
        fun draw => SalesOrderState.mk draw.1 rowNumber draw.2
    else some st).map fun st1 =>
    let remaining := st1.remainingLineItems - 1
    ((st1.ticketNumber, decide (remaining = 0)),
      { st1 with remainingLineItems := remaining })

/-- The result of the `(j+1)`-st call in a consecutive run of
`generate_row_and_child_rows` with row numbers `startRow, startRow + 1, …`
(the driver supplies dense 1-based row numbers). -/
def salesOrderCalls (minItems maxItems startRow : Int)
    (st : SalesOrderState) : Nat → Option ((Int × Bool) × SalesOrderState)
  | 0 => salesOrderStep minItems maxItems startRow st
  | j + 1 =>
    ((salesOrderCalls minItems maxItems startRow st j).map Prod.snd).bind
      (salesOrderStep minItems maxItems (startRow + (j + 1 : Nat)))

/-- The order-grouping property for one completed group that starts at row
`startRow`: some group size `n` in `[minItems, maxItems]` exists such that
the first `n` calls all carry ticket number `startRow`, `end_of_parent` is
false strictly inside the group and true exactly on its last row, and the
state after the last row is ready to start a new group. -/
def ordersGrouped (minItems maxItems startRow : Int)
    (st : SalesOrderState) : Prop :=
  ∃ n : Int, minItems ≤ n ∧ n ≤ maxItems ∧
    ∀ j : Nat, (j : Int) < n →
      ∃ ticket eop st',
        salesOrderCalls minItems maxItems startRow st j =
          some ((ticket, eop), st') ∧
        ticket = startRow ∧ (eop = true ↔ (j : Int) = n - 1) ∧
        (st'.remainingLineItems = 0 ↔ (j : Int) = n - 1)

/-! ## Ship-customer gating in order info (src:
`row/catalog_sales_row_generator.rs`, `row/web_sales_row_generator.rs`) -/

/-- `GIFT_PERCENTAGE` in `catalog_sales_row_generator.rs`. -/
def catalogGiftPercentage : Int := 10

/-- `GIFT_PERCENTAGE` in `web_sales_row_generator.rs`. -/
def webGiftPercentage : Int := 7

/-- From `catalog_sales_row_generator.rs` `generate_order_info`: the gift
gate.  A uniform draw in `[0, 99]` is taken from the `CsShipCustomerSk`
stream; a ship-customer bundle distinct from the bill bundle is generated
when `gift_percentage <= GIFT_PERCENTAGE`, otherwise the ship keys copy
the bill keys. -/
def catalogShipToDifferentCustomer (s : RandomNumberStream) :
    Option (Bool × RandomNumberStream) :=
  (generateUniformRandomInt 0 99 s).map fun draw =>
    (decide (draw.1 ≤ catalogGiftPercentage), draw.2)

/-- From `web_sales_row_generator.rs` `generate_order_info`: the
different-ship gate.  A uniform draw in `[0, 99]` is taken from the
`WsShipCustomerSk` stream; the ship bundle is re-generated (distinct from
the bill bundle) when `random_int > GIFT_PERCENTAGE`. -/
def webShipToDifferentCustomer (s : RandomNumberStream) :
    Option (Bool × RandomNumberStream) :=
  (generateUniformRandomInt 0 99 s).map fun draw =>
    (decide (webGiftPercentage < draw.1), draw.2)

/-! ## Store-sales row serialization (src: `row/store_sales_row.rs`,
`generator/store_sales_generator_column.rs`) -/

/-- The generator columns of the store_sales table
(`StoreSalesGeneratorColumn`), global column numbers 314–339. -/
inductive StoreSalesGeneratorColumn where
  | ssSoldDateSk
  | ssSoldTimeSk
  | ssSoldItemSk
  | ssSoldCustomerSk
  | ssSoldCdemoSk
  | ssSoldHdemoSk
  | ssSoldAddrSk
  | ssSoldStoreSk
  | ssSoldPromoSk
  | ssTicketNumber
  | ssPricingQuantity
  | ssPricingWholesaleCost
  | ssPricingListPrice
  | ssPricingSalesPrice
  | ssPricingCouponAmt
  | ssPricingExtSalesPrice
  | ssPricingExtWholesaleCost
  | ssPricingExtListPrice
  | ssPricingExtTax
  | ssPricingNetPaid
  | ssPricingNetPaidIncTax
  | ssPricingNetProfit
  | srIsReturned
  | ssPricing
  | ssNulls
  | ssPermutation
deriving Repr, DecidableEq, Fintype

/-- From `generator/store_sales_generator_column.rs`
`get_global_column_number`. -/
def StoreSalesGeneratorColumn.getGlobalColumnNumber :
    StoreSalesGeneratorColumn → Int
  | .ssSoldDateSk => 314
  | .ssSoldTimeSk => 315
  | .ssSoldItemSk => 316
  | .ssSoldCustomerSk => 317
  | .ssSoldCdemoSk => 318
  | .ssSoldHdemoSk => 319
  | .ssSoldAddrSk => 320
  | .ssSoldStoreSk => 321
  | .ssSoldPromoSk => 322
  | .ssTicketNumber => 323
  | .ssPricingQuantity => 324
  | .ssPricingWholesaleCost => 325
  | .ssPricingListPrice => 326
  | .ssPricingSalesPrice => 327
  | .ssPricingCouponAmt => 328
  | .ssPricingExtSalesPrice => 329
  | .ssPricingExtWholesaleCost => 330
  | .ssPricingExtListPrice => 331
  | .ssPricingExtTax => 332
  | .ssPricingNetPaid => 333
  | .ssPricingNetPaidIncTax => 334
  | .ssPricingNetProfit => 335
  | .srIsReturned => 336
  | .ssPricing => 337
  | .ssNulls => 338
  | .ssPermutation => 339

/-- From `row/store_sales_row.rs` `is_null_at`: test the row's null bitmap
at `global_column_number - 314` (`SsSoldDateSk` is the base column);
`1 << bit` over `i64` is `2 ^ bit`. -/
def storeSalesIsNullAt (nullBitMap : Int)
    (column : StoreSalesGeneratorColumn) : Bool :=
  Int.land nullBitMap
      (2 ^ (column.getGlobalColumnNumber - 314).toNat) ≠ 0

/-- From `row/store_sales_row.rs` `get_string_or_null_for_key`: a
surrogate-key field is serialized as the empty string when the key equals
`-1` or the column's null bit is set, and as the key's decimal text
otherwise. -/
def getStringOrNullForKey (nullBitMap key : Int)
    (column : StoreSalesGeneratorColumn) : String :=
  if key = -1 ∨ storeSalesIsNullAt nullBitMap column then ""
  else toString key

/-- The remainder map of the SCD id-count formula as the claim states it:
`{0,1,2,3,4,5} -> {0,1,2,2,3,3}`. -/
def scdIdCountRemainder (m : Int) : Int :=
  [0, 1, 2, 2, 3, 3].getD m.toNat 0

/-- A constant-weight calendar distribution, used to instantiate theorems
that hold for every embedded weight table. -/
def unitCalendar : CalendarData :=
  ⟨fun _ => 1, fun _ _ => 1⟩

/-! ## Helper lemmas -/

theorem toI32_of_range (a : Int) (h0 : -2 ^ 31 ≤ a) (h1 : a < 2 ^ 31) :
    toI32 a = a := by
  unfold toI32
  omega

theorem toI32_add_toI32_right (a b : Int) :
    toI32 (a + toI32 b) = toI32 (a + b) := by
  unfold toI32
  omega

theorem toI32_range_of_toI32 (lo hi : Int) :
    toI32 (toI32 hi - toI32 lo + 1) = toI32 (hi - lo + 1) := by
  unfold toI32
  omega

theorem nextRandom_fst_nonneg (s : RandomNumberStream) :
    0 ≤ s.nextRandom.1 := by
  simp [RandomNumberStream.nextRandom]

theorem nextRandom_fst_lt (s : RandomNumberStream) :
    s.nextRandom.1 < 2 ^ 31 := by
  have h : lcgNext s.seed < 2147483647 :=
    Nat.mod_lt _ (by norm_num)
  simp only [RandomNumberStream.nextRandom]
  exact_mod_cast lt_trans (by exact_mod_cast h) (by norm_num)

theorem nextRandom_snd (s : RandomNumberStream) :
    s.nextRandom.2 =
      ⟨lcgNext s.seed, s.seedsUsed + 1, s.seedsPerRow⟩ := rfl

/-- For nonnegative bounds within the `i32` range, the uniform draw
succeeds, moves the stream one step, and lands in `[lo, hi]`. -/
theorem generateUniformRandomInt_spec (lo hi : Int) (s : RandomNumberStream)
    (h0 : 0 ≤ lo) (h1 : lo ≤ hi) (h2 : hi < 2 ^ 31)
    (h3 : hi - lo + 1 < 2 ^ 31) :
    ∃ v, generateUniformRandomInt lo hi s = some (v, s.nextRandom.2) ∧
      lo ≤ v ∧ v ≤ hi := by
  have hx0 := nextRandom_fst_nonneg s
  have hx1 := nextRandom_fst_lt s
  have hxi : toI32 s.nextRandom.1 = s.nextRandom.1 :=
    toI32_of_range _ (by omega) hx1
  have hrange : toI32 (hi - lo + 1) = hi - lo + 1 :=
    toI32_of_range _ (by omega) (by omega)
  have hmod : Int.tmod s.nextRandom.1 (hi - lo + 1) =
      s.nextRandom.1 % (hi - lo + 1) :=
    Int.tmod_eq_emod hx0 (by omega)
  have hm0 : 0 ≤ s.nextRandom.1 % (hi - lo + 1) :=
    Int.emod_nonneg _ (by omega)
  have hm1 : s.nextRandom.1 % (hi - lo + 1) < hi - lo + 1 :=
    Int.emod_lt_of_pos _ (by omega)
  refine ⟨s.nextRandom.1 % (hi - lo + 1) + lo, ?_, by omega, by omega⟩
  rw [generateUniformRandomInt]
  simp only [hxi, hrange, hmod]
  rw [if_neg (by omega), if_neg (by push_neg; intro h; omega)]
  rw [toI32_of_range _ (by omega) (by omega)]

/-! ## C8: `generate_uniform_random_key` versus the widened formula -/

/-- C8 counterexample: at `min = max = 2^31` (so `min ≤ max`) and a
concrete stream, `generate_uniform_random_key` returns `-2^31` — the
bounds and the addition of `min` are truncated to `i32`, not carried out
over `i64` as the claim states, which would give `2^31`. -/
theorem c8_uniform_key_not_widened_counterexample :
    (2 ^ 31 : Int) ≤ 2 ^ 31 ∧
    generateUniformRandomKey (2 ^ 31) (2 ^ 31) ⟨1, 0, 1⟩ =
      some (-2147483648, ⟨16807, 1, 1⟩) ∧
    uniformKeyWidenedSpec (2 ^ 31) (2 ^ 31) ⟨1, 0, 1⟩ =
      some (2147483648, ⟨16807, 1, 1⟩) ∧
    (-2147483648 : Int) ≠ 2147483648 := by
  refine ⟨le_refl _, ?_, ?_, by decide⟩
  · rw [generateUniformRandomKey]
    norm_num [toI32, RandomNumberStream.nextRandom, lcgNext]
  · rw [uniformKeyWidenedSpec]
    norm_num [toI32, RandomNumberStream.nextRandom, lcgNext]

/-- C8 (amended): `generate_uniform_random_key` computes exactly the
uniform-int helper's formula applied to the bounds truncated to `i32`
(with the `i32` result sign-extended to `i64`); it is not widened to
`i64`, so for bounds outside the `i32` range the result is not exact. -/
theorem c8_uniform_key_truncates_to_i32 (min max : Int)
    (s : RandomNumberStream) :
    generateUniformRandomKey min max s =
      generateUniformRandomInt (toI32 min) (toI32 max) s := by
  rw [generateUniformRandomKey, generateUniformRandomInt]
  simp only [toI32_range_of_toI32, toI32_add_toI32_right]

/-! ## C10: stream consumption of `generate_random_charset` -/

/-- The character loop always succeeds on a nonempty character set and
consumes exactly one stream value per remaining iteration, independently
of `length`. -/
theorem charsetLoop_spec (chars : List Char) (length : Int)
    (hne : chars ≠ []) (hlen : (chars.length : Int) < 2 ^ 31) :
    ∀ (fuel : Nat) (i : Int) (s : RandomNumberStream) (acc : List Char),
    ∃ r s', charsetLoop chars length fuel i s acc = some (r, s') ∧
      s'.seedsUsed = s.seedsUsed + fuel ∧
      s'.seed = lcgIterate fuel s.seed ∧
      s'.seedsPerRow = s.seedsPerRow := by
  intro fuel
  induction fuel with
  | zero =>
    intro i s acc
    exact ⟨acc.reverse, s, rfl, by omega, rfl, rfl⟩
  | succ fuel ih =>
    intro i s acc
    have hlength : 0 < chars.length := List.length_pos.mpr hne
    obtain ⟨v, hv, hv0, hv1⟩ :=
      generateUniformRandomInt_spec 0 ((chars.length : Int) - 1) s
        (le_refl 0) (by omega) (by omega) (by omega)
    have hvn : v.toNat < chars.length := by omega
    simp only [charsetLoop, hv]
    rcases le_or_lt length i with hcase | hcase
    · rw [if_neg (by omega)]
      obtain ⟨r, s', hloop, hused, hseed, hper⟩ := ih (i + 1) s.nextRandom.2 acc
      refine ⟨r, s', hloop, ?_, ?_, ?_⟩
      · rw [hused, nextRandom_snd]
        dsimp only
        omega
      · rw [hseed, nextRandom_snd]
        rfl
      · rw [hper, nextRandom_snd]
    · rw [if_pos hcase, List.get?_eq_get hvn]
      obtain ⟨r, s', hloop, hused, hseed, hper⟩ :=
        ih (i + 1) s.nextRandom.2 (chars.get ⟨v.toNat, hvn⟩ :: acc)
      refine ⟨r, s', hloop, ?_, ?_, ?_⟩
      · rw [hused, nextRandom_snd]
        dsimp only
        omega
      · rw [hseed, nextRandom_snd]
        rfl
      · rw [hper, nextRandom_snd]

/-- C10 counterexample: at `min = max = -1` (so `min ≤ max`) the drawn
length is `-1` and the function panics in
`String::with_capacity((-1) as usize)` — capacity overflow, modelled as
`none` — instead of completing after the claimed `max + 1 = 0` stream
draws: the unqualified claim is wrong for negative `max`. -/
theorem c10_charset_consumption_counterexample :
    (-1 : Int) ≤ -1 ∧
    generateRandomCharset ['a', 'b'] (-1) (-1) ⟨1, 0, 0⟩ = none := by
  refine ⟨le_refl _, ?_⟩
  rw [generateRandomCharset]
  norm_num [generateUniformRandomInt, toI32, RandomNumberStream.nextRandom,
    lcgNext]

/-- C10 (amended): for every nonempty character set and `i32` bounds
`0 ≤ min ≤ max`, `generate_random_charset` completes and consumes exactly
`max + 1` stream values — one length draw plus `max` character draws,
independent of the drawn length.  (A negative drawn length instead
panics in `String::with_capacity`, and an empty character set aborts the
character-index draw.) -/
theorem c10_charset_consumption (chars : List Char) (min max : Int)
    (s : RandomNumberStream)
    (hne : chars ≠ []) (hlen : (chars.length : Int) < 2 ^ 31)
    (h0 : 0 ≤ min) (h1 : min ≤ max) (h2 : max < 2 ^ 31)
    (h3 : max - min + 1 < 2 ^ 31) :
    ∃ r s', generateRandomCharset chars min max s = some (r, s') ∧
      s'.seedsUsed = s.seedsUsed + (max.toNat + 1) ∧
      s'.seed = lcgIterate (max.toNat + 1) s.seed ∧
      s'.seedsPerRow = s.seedsPerRow := by
  obtain ⟨len, hdraw, hmin, _⟩ :=
    generateUniformRandomInt_spec min max s h0 h1 h2 h3
  obtain ⟨r, s', hloop, hused, hseed, hper⟩ :=
    charsetLoop_spec chars len hne hlen max.toNat 0 s.nextRandom.2 []
  refine ⟨r, s', ?_, ?_, ?_, ?_⟩
  · rw [generateRandomCharset, hdraw]
    dsimp only
    rw [if_neg (by omega : ¬ len < 0)]
    exact hloop
  · rw [hused, nextRandom_snd]
    dsimp only
    omega
  · rw [hseed, nextRandom_snd]
    rfl
  · rw [hper, nextRandom_snd]

/-- C10 witness: the amended consumption theorem at the concrete input
`['a','b']`, `min = 0`, `max = 2`, seed `1` — three stream values are
consumed. -/
theorem c10_charset_consumption_witness :
    ∃ r s', generateRandomCharset ['a', 'b'] 0 2 ⟨1, 0, 0⟩ = some (r, s') ∧
      s'.seedsUsed = (⟨1, 0, 0⟩ : RandomNumberStream).seedsUsed +
        ((2 : Int).toNat + 1) ∧
      s'.seed = lcgIterate ((2 : Int).toNat + 1)
        (⟨1, 0, 0⟩ : RandomNumberStream).seed ∧
      s'.seedsPerRow = (⟨1, 0, 0⟩ : RandomNumberStream).seedsPerRow :=
  c10_charset_consumption ['a', 'b'] 0 2 ⟨1, 0, 0⟩ (by decide)
    (by norm_num) (by norm_num) (by norm_num) (by norm_num) (by norm_num)

/-! ## C3: the row-boundary seed discipline -/

theorem lcgIterate_add (m n : Nat) (x : Nat) :
    lcgIterate m (lcgIterate n x) = lcgIterate (n + m) x := by
  induction n generalizing x with
  | zero => rw [lcgIterate, Nat.zero_add]
  | succ n ih =>
    show lcgIterate m (lcgIterate n (lcgNext x)) = lcgIterate (n + 1 + m) x
    rw [ih]
    have h : n + 1 + m = (n + m) + 1 := by omega
    rw [h]
    rfl

/-- The filler draw is exactly one stream step. -/
theorem fillerDraw_eq (s : RandomNumberStream) :
    fillerDraw s = s.nextRandom.2 := by
  have h1 : generateUniformRandomInt 1 100 s =
      some (toI32 (Int.tmod (toI32 s.nextRandom.1) 100 + 1), s.nextRandom.2) := by
    rw [generateUniformRandomInt]
    have h0 : toI32 (100 - 1 + 1) = 100 := by norm_num [toI32]
    simp only [h0]
    norm_num
  rw [fillerDraw, h1]
  rfl

/-- `n` draws advance the seed `n` steps, add `n` to `seeds_used`, and keep
the budget. -/
theorem drawN_spec (d : Nat) (s : RandomNumberStream) :
    drawN d s = ⟨lcgIterate d s.seed, s.seedsUsed + d, s.seedsPerRow⟩ := by
  induction d generalizing s with
  | zero => rw [drawN, lcgIterate, Nat.add_zero]
  | succ d ih =>
    rw [drawN, ih, nextRandom_snd]
    dsimp only
    congr 1
    omega

/-- The while loop of the seed-consumer pass drains exactly the unused
budget and resets `seeds_used`. -/
theorem consumeStream_spec (s : RandomNumberStream) :
    consumeStream s =
      ⟨lcgIterate (s.seedsPerRow - s.seedsUsed) s.seed, 0, s.seedsPerRow⟩ := by
  generalize hk : s.seedsPerRow - s.seedsUsed = k
  induction k generalizing s with
  | zero =>
    rw [consumeStream, if_neg (by omega), lcgIterate]
  | succ k ih =>
    rw [consumeStream, if_pos (by omega), fillerDraw_eq, nextRandom_snd,
      ih ⟨lcgNext s.seed, s.seedsUsed + 1, s.seedsPerRow⟩ (by dsimp only; omega)]
    rfl

/-- One stream of a generator, over one full row: starting fresh
(`seeds_used = 0`) and drawn `d ≤ seeds_per_row` times by the row
generation, the seed-consumer pass brings it to `seeds_used = 0` with the
seed advanced by exactly `seeds_per_row` steps. -/
theorem consumeStream_drawN (s : RandomNumberStream) (d : Nat)
    (hfresh : s.seedsUsed = 0) (hbudget : d ≤ s.seedsPerRow) :
    consumeStream (drawN d s) =
      ⟨lcgIterate s.seedsPerRow s.seed, 0, s.seedsPerRow⟩ := by
  rw [drawN_spec, consumeStream_spec]
  dsimp only
  rw [hfresh, lcgIterate_add]
  congr 2
  omega

/-- C3: for every generator (its owned streams, as the list
`random_number_streams`) and every row, if each stream starts the row
fresh (`seeds_used = 0`) and the row generation draws from each stream at
most its budget, then after `consume_remaining_seeds_for_row` every stream
reports `seeds_used = 0` and its LCG state has advanced by exactly
`seeds_per_row` steps since the start of the row (and the budget itself is
unchanged), regardless of the per-stream draw counts. -/
theorem c3_consume_remaining_seeds_discipline
    (g0 : List RandomNumberStream) (draws : List Nat)
    (hlen : draws.length = g0.length)
    (hfresh : ∀ s ∈ g0, s.seedsUsed = 0)
    (hbudget : ∀ i, i < g0.length →
      draws.getD i 0 ≤ (g0.getD i ⟨0, 0, 0⟩).seedsPerRow) :
    ∀ i, i < g0.length →
      (consumeRemainingSeedsForRow (List.zipWith drawN draws g0)).getD i
          ⟨0, 0, 0⟩ =
        ⟨lcgIterate (g0.getD i ⟨0, 0, 0⟩).seedsPerRow
            (g0.getD i ⟨0, 0, 0⟩).seed,
          0, (g0.getD i ⟨0, 0, 0⟩).seedsPerRow⟩ := by
  induction g0 generalizing draws with
  | nil =>
    intro i hi
    exact absurd hi (by simp)
  | cons s g0 ih =>
    intro i hi
    cases draws with
    | nil => exact absurd hlen (by simp)
    | cons d draws =>
      cases i with
      | zero =>
        have h0 : consumeRemainingSeedsForRow
            (List.zipWith drawN (d :: draws) (s :: g0)) =
            consumeStream (drawN d s) ::
              consumeRemainingSeedsForRow (List.zipWith drawN draws g0) := rfl
        rw [h0]
        have hb := hbudget 0 (by simp)
        simp only [List.getD_cons_zero] at hb ⊢
        exact consumeStream_drawN s d (hfresh s (by simp)) hb
      | succ i =>
        have h0 : consumeRemainingSeedsForRow
            (List.zipWith drawN (d :: draws) (s :: g0)) =
            consumeStream (drawN d s) ::
              consumeRemainingSeedsForRow (List.zipWith drawN draws g0) := rfl
        rw [h0]
        simp only [List.getD_cons_succ]
        exact ih draws (by simpa using hlen)
          (fun t ht => hfresh t (List.mem_cons_of_mem s ht))
          (fun j hj => by
            have := hbudget (j + 1) (by simpa using hj)
            simpa using this)
          i (by simpa using hi)

/-- C3 witness: a generator owning one stream with budget 2, drawn once by
the row; after the seed-consumer pass it reports `seeds_used = 0` with the
seed advanced exactly 2 steps. -/
theorem c3_consume_remaining_seeds_discipline_witness :
    (consumeRemainingSeedsForRow
        (List.zipWith drawN [1] [⟨1, 0, 2⟩])).getD 0 ⟨0, 0, 0⟩ =
      ⟨lcgIterate (([(⟨1, 0, 2⟩ : RandomNumberStream)].getD 0
            ⟨0, 0, 0⟩).seedsPerRow)
          (([(⟨1, 0, 2⟩ : RandomNumberStream)].getD 0 ⟨0, 0, 0⟩).seed),
        0, ([(⟨1, 0, 2⟩ : RandomNumberStream)].getD 0 ⟨0, 0, 0⟩).seedsPerRow⟩ :=
  c3_consume_remaining_seeds_discipline [⟨1, 0, 2⟩] [1] rfl
    (by intro s hs; rw [List.mem_singleton] at hs; rw [hs])
    (by intro i hi; have h : i = 0 := by simpa using hi
        rw [h]; decide)
    0 (by simp)

/-! ## C9: the returns pricing allocation partitions `net_paid` -/

theorem Decimal.toRat_scaleTo (d : Decimal) (p : Nat) (h : d.precision ≤ p) :
    ((d.scaleTo p : Int) : ℚ) / 10 ^ p = d.toRat := by
  unfold Decimal.scaleTo Decimal.toRat
  have h10 : (10 : ℚ) ^ p = 10 ^ d.precision * 10 ^ (p - d.precision) := by
    rw [← pow_add]
    congr 1
    omega
  push_cast
  rw [h10, mul_comm ((10 : ℚ) ^ d.precision) _, ← div_div,
    mul_div_assoc, div_self (pow_ne_zero _ (by norm_num)), mul_one]

theorem Decimal.toRat_add2 (a b : Decimal) :
    (Decimal.add2 a b).toRat = a.toRat + b.toRat := by
  show ((a.scaleTo (max a.precision b.precision) +
      b.scaleTo (max a.precision b.precision) : Int) : ℚ) /
      10 ^ max a.precision b.precision = a.toRat + b.toRat
  rw [Int.cast_add, add_div, Decimal.toRat_scaleTo a _ (le_max_left _ _),
    Decimal.toRat_scaleTo b _ (le_max_right _ _)]

theorem Decimal.toRat_subtract (a b : Decimal) :
    (Decimal.subtract a b).toRat = a.toRat - b.toRat := by
  show ((a.scaleTo (max a.precision b.precision) -
      b.scaleTo (max a.precision b.precision) : Int) : ℚ) /
      10 ^ max a.precision b.precision = a.toRat - b.toRat
  rw [Int.cast_sub, sub_div, Decimal.toRat_scaleTo a _ (le_max_left _ _),
    Decimal.toRat_scaleTo b _ (le_max_right _ _)]

/-- The uniform decimal draw succeeds whenever the number range is
nonzero, moving the stream one step. -/
theorem generateUniformRandomDecimal_spec (mn mx : Decimal)
    (s : RandomNumberStream) (h : mx.number - mn.number + 1 ≠ 0) :
    generateUniformRandomDecimal mn mx s =
      some (⟨Int.tmod s.nextRandom.1 (mx.number - mn.number + 1) + mn.number,
        if mn.precision < mx.precision then mn.precision else mx.precision⟩,
        s.nextRandom.2) := by
  rw [generateUniformRandomDecimal, if_neg h]

/-- C9: for every stream state, return quantity and base sales pricing,
`generate_pricing_for_returns_table` succeeds and its three allocation
fields partition the net paid amount exactly:
`refunded_cash + reversed_charge + store_credit = net_paid` (as exact
decimal values), because `store_credit` is computed as the balance
`net_paid - reversed_charge - refunded_cash`. -/
theorem c9_returns_pricing_partitions_net_paid (s : RandomNumberStream)
    (quantity : Int) (basePricing : Pricing) :
    ∃ p rest,
      generatePricingForReturnsTable s quantity basePricing =
        some (p, rest) ∧
      p.refundedCash.toRat + p.reversedCharge.toRat + p.storeCredit.toRat =
        p.netPaid.toRat := by
  have hship := generateUniformRandomDecimal_spec Decimal.ZERO
    Decimal.ONE_HALF s (by norm_num [Decimal.ZERO, Decimal.ONE_HALF])
  obtain ⟨v1, hcash, -, -⟩ := generateUniformRandomInt_spec 0 100
    s.nextRandom.2 (by norm_num) (by norm_num) (by norm_num) (by norm_num)
  obtain ⟨v2, hcredit, -, -⟩ := generateUniformRandomInt_spec 1 100
    s.nextRandom.2.nextRandom.2 (by norm_num) (by norm_num) (by norm_num)
    (by norm_num)
  have hfee := generateUniformRandomDecimal_spec Decimal.ONE_HALF
    Decimal.ONE_HUNDRED s.nextRandom.2.nextRandom.2.nextRandom.2
    (by norm_num [Decimal.ONE_HALF, Decimal.ONE_HUNDRED])
  rw [generatePricingForReturnsTable, hship]
  rw [Option.some_bind, hcash, Option.some_bind, hcredit, Option.some_bind,
    hfee, Option.some_bind]
  refine ⟨_, _, rfl, ?_⟩
  dsimp only
  rw [Decimal.toRat_subtract, Decimal.toRat_subtract]
  ring

/-! ## C6: the ship-customer gating rolls -/

/-- C6 counterexample: the catalog gift gate fires on the draw value `10`
as well (the source tests `gift_percentage <= GIFT_PERCENTAGE`), so it
fires on 11 of the 100 equally likely draw outcomes `0..99` — not with
probability 10/100 as claimed.  At seed `430` the concrete draw is `10`
and a distinct ship-customer bundle is generated. -/
theorem c6_gift_roll_counterexample :
    catalogShipToDifferentCustomer ⟨430, 0, 0⟩ =
      some (true, ⟨7227010, 1, 0⟩) ∧
    ((Finset.Icc (0 : ℤ) 99).filter
      fun d => d ≤ catalogGiftPercentage).card ≠ 10 := by
  constructor
  · rw [catalogShipToDifferentCustomer, generateUniformRandomInt]
    norm_num [toI32, RandomNumberStream.nextRandom, lcgNext,
      catalogGiftPercentage]
    decide
  · have h : ((Finset.Icc (0 : ℤ) 99).filter
        fun d => d ≤ catalogGiftPercentage) = Finset.Icc 0 10 := by
      ext x
      simp [catalogGiftPercentage]
      omega
    rw [h, Int.card_Icc]
    decide

/-- C6 (amended): when a catalog sales order starts, the distinct
ship-customer bundle is generated exactly when the uniform `[0, 99]` gift
draw is at most `10` — 11 of the 100 outcomes, not 10 — and for web sales
exactly when the draw is strictly greater than `7` — 92 of the 100
outcomes (the store sales order info carries no ship-customer bundle at
all). -/
theorem c6_gift_roll_gating :
    (∀ (s s' : RandomNumberStream) (draw : Int),
      generateUniformRandomInt 0 99 s = some (draw, s') →
        0 ≤ draw ∧ draw ≤ 99 ∧
        catalogShipToDifferentCustomer s = some (decide (draw ≤ 10), s') ∧
        webShipToDifferentCustomer s = some (decide (7 < draw), s')) ∧
    ((Finset.Icc (0 : ℤ) 99).filter
      fun d => d ≤ catalogGiftPercentage).card = 11 ∧
    ((Finset.Icc (0 : ℤ) 99).filter
      fun d => webGiftPercentage < d).card = 92 := by
  refine ⟨?_, ?_, ?_⟩
  · intro s s' draw h
    obtain ⟨v, hv, hv0, hv1⟩ := generateUniformRandomInt_spec 0 99 s
      (by norm_num) (by norm_num) (by norm_num) (by norm_num)
    have h2 : (v, s.nextRandom.2) = (draw, s') := by
      rw [hv] at h
      exact Option.some.inj h
    cases h2
    refine ⟨hv0, hv1, ?_, ?_⟩
    · rw [catalogShipToDifferentCustomer, hv]
      rfl
    · rw [webShipToDifferentCustomer, hv]
      rfl
  · have h : ((Finset.Icc (0 : ℤ) 99).filter
        fun d => d ≤ catalogGiftPercentage) = Finset.Icc 0 10 := by
      ext x
      simp [catalogGiftPercentage]
      omega
    rw [h, Int.card_Icc]
    decide
  · have h : ((Finset.Icc (0 : ℤ) 99).filter
        fun d => webGiftPercentage < d) = Finset.Icc 8 99 := by
      ext x
      simp [webGiftPercentage]
      omega
    rw [h, Int.card_Icc]
    decide

/-- C6 witness: the gating equivalence at the concrete stream seeded
`430`, whose gift draw is `10`. -/
theorem c6_gift_roll_gating_witness :
    0 ≤ (10 : ℤ) ∧ (10 : ℤ) ≤ 99 ∧
    catalogShipToDifferentCustomer ⟨430, 0, 0⟩ =
      some (decide ((10 : ℤ) ≤ 10), ⟨7227010, 1, 0⟩) ∧
    webShipToDifferentCustomer ⟨430, 0, 0⟩ =
      some (decide ((7 : ℤ) < 10), ⟨7227010, 1, 0⟩) :=
  c6_gift_roll_gating.1 ⟨430, 0, 0⟩ ⟨7227010, 1, 0⟩ 10 (by
    rw [generateUniformRandomInt]
    norm_num [toI32, RandomNumberStream.nextRandom, lcgNext]
    decide)

/-! ## C7: serialization of surrogate keys -/

theorem toDigitsCore_length_le (b : Nat) :
    ∀ (fuel n : Nat) (ds : List Char),
      ds.length ≤ (Nat.toDigitsCore b fuel n ds).length := by
  intro fuel
  induction fuel with
  | zero =>
    intro n ds
    simp [Nat.toDigitsCore]
  | succ fuel ih =>
    intro n ds
    simp only [Nat.toDigitsCore]
    split
    · simp
    · exact le_trans (by simp) (ih (n / b) (Nat.digitChar (n % b) :: ds))

theorem toDigits_ne_nil (b n : Nat) : Nat.toDigits b n ≠ [] := by
  have h1 : 1 ≤ (Nat.toDigits b n).length := by
    rw [Nat.toDigits]
    simp only [Nat.toDigitsCore]
    split
    · simp
    · exact le_trans (by simp)
        (toDigitsCore_length_le b n (n / b) [Nat.digitChar (n % b)])
  intro h
  rw [h] at h1
  simp at h1

theorem natRepr_ne_empty (n : Nat) : Nat.repr n ≠ "" := by
  intro h
  have h2 : Nat.toDigits 10 n = [] := by
    have h3 := congrArg String.data h
    simpa [Nat.repr, List.asString] using h3
  exact toDigits_ne_nil 10 n h2

/-- Rust's `to_string` on an integer never yields the empty string. -/
theorem intToString_ne_empty (k : Int) : toString k ≠ "" := by
  cases k with
  | ofNat m =>
    show Nat.repr m ≠ ""
    exact natRepr_ne_empty m
  | negSucc m =>
    intro h
    have h2 : ("-" ++ toString (m + 1) : String) = "" := h
    have h3 := congrArg String.length h2
    have h4 : ("-" : String).length = 1 := rfl
    have h5 : ("" : String).length = 0 := rfl
    rw [String.length_append, h4, h5] at h3
    omega

/-- C7 counterexample: the key `-2` is negative, its null bit is clear,
and the serializer writes `"-2"` — not the empty string.  Only the
sentinel `-1` is blanked (`if key == -1 || is_null_at(...)`), so negative
surrogate keys other than `-1` do appear in the output text. -/
theorem c7_negative_key_counterexample :
    (-2 : Int) < 0 ∧
    getStringOrNullForKey 0 (-2) .ssSoldDateSk = "-2" ∧
    ("-2" : String) ≠ "" := by
  refine ⟨by norm_num, ?_, by decide⟩
  rw [getStringOrNullForKey, if_neg (by decide)]
  rfl

/-- C7 (amended): a surrogate-key field is serialized as the empty string
exactly when the key equals `-1` or the column's null-bitmap bit is set —
for every null bitmap, key value and store_sales generator column. -/
theorem c7_key_empty_iff (nullBitMap key : Int)
    (column : StoreSalesGeneratorColumn) :
    getStringOrNullForKey nullBitMap key column = "" ↔
      (key = -1 ∨ storeSalesIsNullAt nullBitMap column = true) := by
  rw [getStringOrNullForKey]
  split
  · next h => exact iff_of_true rfl h
  · next h => exact iff_of_false (intToString_ne_empty key) h

/-! ## C4: order grouping in the fact-table generators -/

/-- Mid-group trace: starting from an order boundary
(`remaining_line_items = 0`) with the line-count draw `n`, call `j` (for
`j < n`) emits ticket `startRow` with `end_of_parent` exactly when the
decremented counter hits zero, and the counter counts down from `n`. -/
theorem salesOrderCalls_spec (minItems maxItems startRow : Int)
    (st : SalesOrderState) (h0 : st.remainingLineItems = 0) (n : Int)
    (hdraw : generateUniformRandomInt minItems maxItems st.lineItemsStream =
      some (n, st.lineItemsStream.nextRandom.2)) :
    ∀ j : Nat, (j : Int) < n →
      salesOrderCalls minItems maxItems startRow st j =
        some ((startRow, decide (n - 1 - (j : Int) = 0)),
          ⟨n - 1 - (j : Int), startRow,
            st.lineItemsStream.nextRandom.2⟩) := by
  intro j
  induction j with
  | zero =>
    intro hj
    show salesOrderStep minItems maxItems startRow st = _
    rw [salesOrderStep, if_pos h0, hdraw, Option.map_some', Option.map_some']
    dsimp only
    norm_num
  | succ j ih =>
    intro hj
    have hjn : (j : Int) < n := by push_cast at hj ⊢; omega
    show ((salesOrderCalls minItems maxItems startRow st j).map
        Prod.snd).bind
        (salesOrderStep minItems maxItems (startRow + (j + 1 : Nat))) = _
    rw [ih hjn, Option.map_some', Option.some_bind]
    dsimp only
    rw [salesOrderStep, if_neg (by push_cast at hj ⊢; omega),
      Option.map_some']
    dsimp only
    have harith : n - 1 - (j : Int) - 1 = n - 1 - ((j : Nat) + 1 : Nat) := by
      push_cast
      ring
    rw [harith]

/-- A completed group: from any order boundary, the next calls form one
group whose size is the `[minItems, maxItems]` draw. -/
theorem salesOrderGroup (minItems maxItems : Int) (hmin : 0 < minItems)
    (hle : minItems ≤ maxItems) (hmax : maxItems < 2 ^ 31)
    (hrange : maxItems - minItems + 1 < 2 ^ 31) (startRow : Int)
    (st : SalesOrderState) (h0 : st.remainingLineItems = 0) :
    ordersGrouped minItems maxItems startRow st := by
  obtain ⟨n, hdraw, hn0, hn1⟩ := generateUniformRandomInt_spec minItems
    maxItems st.lineItemsStream (le_of_lt hmin) hle hmax hrange
  refine ⟨n, hn0, hn1, ?_⟩
  intro j hj
  refine ⟨startRow, decide (n - 1 - (j : Int) = 0),
    ⟨n - 1 - (j : Int), startRow, st.lineItemsStream.nextRandom.2⟩,
    salesOrderCalls_spec minItems maxItems startRow st h0 n hdraw j hj,
    rfl, ?_, ?_⟩
  · rw [decide_eq_true_iff]
    omega
  · dsimp only
    omega

/-- C4: in each of the three fact-table generation sequences, from any
order boundary the next rows form one completed group — all rows carry the
starting call's row number as their ticket/order number, `end_of_parent`
is false strictly inside the group and true exactly on its last row, and
the group size is the per-order `remaining_line_items` draw from `[8, 16]`
for store sales, `[4, 14]` for catalog sales and `[8, 16]` for web sales.
Since a fresh generator starts with `remaining_line_items = 0` and the
state after a completed group is again an order boundary, the whole
sequence is partitioned into such groups. -/
theorem c4_fact_table_order_grouping (st : SalesOrderState) (startRow : Int)
    (h0 : st.remainingLineItems = 0) :
    ordersGrouped 8 16 startRow st ∧ ordersGrouped 4 14 startRow st ∧
      ordersGrouped 8 16 startRow st :=
  ⟨salesOrderGroup 8 16 (by norm_num) (by norm_num) (by norm_num)
      (by norm_num) startRow st h0,
    salesOrderGroup 4 14 (by norm_num) (by norm_num) (by norm_num)
      (by norm_num) startRow st h0,
    salesOrderGroup 8 16 (by norm_num) (by norm_num) (by norm_num)
      (by norm_num) startRow st h0⟩

/-- C4 witness: the grouping property at a concrete fresh generator state
and row number 1. -/
theorem c4_fact_table_order_grouping_witness :
    ordersGrouped 8 16 1 ⟨0, 0, ⟨1, 0, 0⟩⟩ ∧
      ordersGrouped 4 14 1 ⟨0, 0, ⟨1, 0, 0⟩⟩ ∧
      ordersGrouped 8 16 1 ⟨0, 0, ⟨1, 0, 0⟩⟩ :=
  c4_fact_table_order_grouping ⟨0, 0, ⟨1, 0, 0⟩⟩ 1 rfl

/-! ## Nonnegativity of the scaling model -/

theorem getScalingInfo_rowCounts_nonneg :
    ∀ t : Table, ∀ x ∈ (Table.getScalingInfo t).rowCounts, (0 : ℤ) ≤ x := by
  decide

theorem rowCounts_getD_nonneg (t : Table) (j : Nat) :
    0 ≤ (Table.getScalingInfo t).rowCounts.getD j 0 := by
  rw [List.getD_eq_getD_get?]
  cases hv : (Table.getScalingInfo t).rowCounts.get? j with
  | none => simp
  | some v =>
    simp only [Option.getD_some]
    exact getScalingInfo_rowCounts_nonneg t v (List.get?_mem hv)

theorem definedScale_slot_bounds (q : ℚ) (h1 : ¬ q ≤ 0) (h2 : ¬ 100000 < q)
    (_h3 : ¬ q < 1) :
    definedScale (scaleSlot q - 1) ≤ q ∧ q ≤ definedScale (scaleSlot q) ∧
      definedScale (scaleSlot q - 1) < definedScale (scaleSlot q) := by
  rw [scaleSlot]
  split_ifs with ha hb hc hd he hf hg hh <;>
    refine ⟨?_, ?_, ?_⟩ <;> simp only [definedScale] <;> linarith

theorem getRowCountForScale_nonneg (info : ScalingInfo)
    (hR : ∀ j, 0 ≤ info.rowCounts.getD j 0) (q : ℚ) (r : Int)
    (h : info.getRowCountForScale q = some r) : 0 ≤ r := by
  rw [ScalingInfo.getRowCountForScale] at h
  split_ifs at h with hdom hsub hstat hex hstat2 <;>
    try (cases h)
  · exact hR 1
  · push_neg at hdom
    rw [Int.le_floor]
    push_cast
    have hr1 : (0 : ℚ) ≤ ((info.rowCounts.getD 1 0 : ℤ) : ℚ) := by
      exact_mod_cast hR 1
    nlinarith [hdom.1]
  · exact hR _
  · exact hR _
  · -- interpolation branch
    push_neg at hdom
    obtain ⟨hlo, hhi, hlt⟩ := definedScale_slot_bounds q
      (by intro hcontra; exact absurd hcontra (not_le.mpr hdom.1))
      (not_lt.mpr hdom.2) hsub
    have hq2 : q < definedScale (scaleSlot q) := lt_of_le_of_ne hhi hex
    set lo := info.rowCounts.getD (scaleSlot q - 1) 0 with hlodef
    set hi := info.rowCounts.getD (scaleSlot q) 0 with hhidef
    have hlo0 : 0 ≤ lo := hR _
    have hhi0 : 0 ≤ hi := hR _
    rw [interpolate]
    rcases le_total (lo : ℤ) hi with hcase | hcase
    · have hfloor : (0 : ℤ) ≤
          ⌊(q - definedScale (scaleSlot q - 1)) * ((hi - lo : ℤ) : ℚ) /
            (definedScale (scaleSlot q) - definedScale (scaleSlot q - 1))⌋ := by
        rw [Int.le_floor]
        push_cast
        have hnum : (0 : ℚ) ≤ (q - definedScale (scaleSlot q - 1)) *
            ((hi : ℚ) - (lo : ℚ)) := by
          apply mul_nonneg (by linarith)
          have : ((lo : ℤ) : ℚ) ≤ ((hi : ℤ) : ℚ) := by exact_mod_cast hcase
          linarith
        exact div_nonneg hnum (by linarith)
      omega
    · have hfloor : ((hi - lo : ℤ) : ℤ) ≤
          ⌊(q - definedScale (scaleSlot q - 1)) * ((hi - lo : ℤ) : ℚ) /
            (definedScale (scaleSlot q) - definedScale (scaleSlot q - 1))⌋ := by
        rw [Int.le_floor]
        have hd : ((hi - lo : ℤ) : ℚ) ≤ 0 := by
          have : ((hi : ℤ) : ℚ) ≤ ((lo : ℤ) : ℚ) := by exact_mod_cast hcase
          push_cast
          linarith
        rw [le_div_iff₀ (by linarith)]
        nlinarith
      omega

theorem getRowCountForScale_getD_nonneg (t : Table) (q : ℚ) :
    0 ≤ (t.getScalingInfo.getRowCountForScale q).getD 0 := by
  cases hv : t.getScalingInfo.getRowCountForScale q with
  | none => simp
  | some v =>
    simp only [Option.getD_some]
    exact getRowCountForScale_nonneg t.getScalingInfo
      (rowCounts_getD_nonneg t) q v hv

theorem getRowCountBase_nonneg (t : Table) (q : ℚ) (r : Int)
    (h : getRowCountBase t q = some r) : 0 ≤ r := by
  rw [getRowCountBase] at h
  split_ifs at h with hs hk
  · rw [Option.some_inj] at h
    subst h
    refine mul_nonneg ?_ ?_
    · exact getRowCountForScale_getD_nonneg t q
    · positivity
  · rw [Option.some_inj] at h
    subst h
    refine mul_nonneg ?_ ?_
    · exact getRowCountForScale_getD_nonneg t q
    · positivity

theorem idCountFromRowCount_nonneg (keepsHistory : Bool) (rc : Int)
    (h : 0 ≤ rc) : 0 ≤ idCountFromRowCount keepsHistory rc := by
  rw [idCountFromRowCount]
  cases keepsHistory with
  | false => simpa using h
  | true =>
    simp only [if_true]
    rw [Int.tdiv_eq_ediv h (by norm_num), Int.tmod_eq_emod h (by norm_num)]
    split_ifs <;> omega

theorem getRowCount_nonneg (t : Table) (q : ℚ) (r : Int)
    (h : getRowCount t q = some r) : 0 ≤ r := by
  rw [getRowCount] at h
  split_ifs at h with hinv
  · rw [scaleInventory] at h
    cases hi : getRowCountBase Table.item q with
    | none => rw [hi] at h; cases h
    | some rcItem =>
      cases hw : getRowCountBase Table.warehouse q with
      | none => rw [hi, hw, Option.some_bind] at h; cases h
      | some rcWh =>
        rw [hi, hw, Option.some_bind, Option.map_some', Option.some_inj] at h
        subst h
        have h1 := getRowCountBase_nonneg Table.item q rcItem hi
        have h2 := getRowCountBase_nonneg Table.warehouse q rcWh hw
        have h3 : (0 : ℤ) ≤ inventoryWeeks := by decide
        exact mul_nonneg (mul_nonneg
          (idCountFromRowCount_nonneg _ rcItem h1) h2) h3
  · exact getRowCountBase_nonneg t q r h

/-- C1: for every table and scale factor with a defined row count, if the
table keeps history then `get_id_count` returns
`floor(row_count / 6) * 3 + {0 ↦ 0, 1 ↦ 1, 2 ↦ 2, 3 ↦ 2, 4 ↦ 3, 5 ↦ 3}`
applied to `row_count mod 6`, and if it does not keep history it returns
the row count unchanged.  (Row counts are nonnegative, so Rust's truncated
division and remainder coincide with floor division and its remainder.) -/
theorem c1_scd_id_count (t : Table) (scale : ℚ) (rc : Int)
    (h : getRowCount t scale = some rc) :
    (t.keepsHistory = true →
      getIdCount t scale = some (rc / 6 * 3 + scdIdCountRemainder (rc % 6))) ∧
    (t.keepsHistory = false → getIdCount t scale = some rc) := by
  have hnn : 0 ≤ rc := getRowCount_nonneg t scale rc h
  have hform : t.keepsHistory = true →
      idCountFromRowCount t.keepsHistory rc =
        rc / 6 * 3 + scdIdCountRemainder (rc % 6) := by
    intro hk
    rw [idCountFromRowCount, hk]
    simp only [if_true]
    rw [Int.tdiv_eq_ediv hnn (by norm_num), Int.tmod_eq_emod hnn (by norm_num)]
    have h6 : rc % 6 = 0 ∨ rc % 6 = 1 ∨ rc % 6 = 2 ∨ rc % 6 = 3 ∨
        rc % 6 = 4 ∨ rc % 6 = 5 := by omega
    rcases h6 with h6 | h6 | h6 | h6 | h6 | h6 <;>
      rw [h6] <;> norm_num [scdIdCountRemainder, List.getD] <;> rfl
  constructor
  · intro hk
    rw [getIdCount, h, Option.map_some', hform hk]
  · intro hk
    rw [getIdCount, h, Option.map_some', idCountFromRowCount, hk]
    simp

/-- C1 witness: the id-count formula at the history-keeping `item` table,
scale factor 1, whose row count is 18000. -/
theorem c1_scd_id_count_witness :
    (Table.item.keepsHistory = true →
      getIdCount Table.item 1 =
        some ((18000 : Int) / 6 * 3 + scdIdCountRemainder ((18000 : Int) % 6))) ∧
    (Table.item.keepsHistory = false → getIdCount Table.item 1 = some 18000) :=
  c1_scd_id_count Table.item 1 18000 (by decide)

/-- C2: the concrete row counts `customer @ 1 = 100000`,
`customer @ 2 = 144000`, `customer @ 0.1 = 10000`,
`inventory @ 1 = 11745000`, `inventory @ 10 = 133110000`; the inventory
row count is `item id_count × warehouse row_count × weeks_in_range`; and
`weeks_in_range = ⌈(JULIAN_DATE_MAXIMUM - JULIAN_DATE_MINIMUM + 1) / 7⌉`. -/
theorem c2_row_count_values :
    getRowCount .customer 1 = some 100000 ∧
    getRowCount .customer 2 = some 144000 ∧
    getRowCount .customer (1/10) = some 10000 ∧
    getRowCount .inventory 1 = some 11745000 ∧
    getRowCount .inventory 10 = some 133110000 ∧
    (∀ scale : ℚ, ∀ it wh : Int, getIdCount .item scale = some it →
      getRowCount .warehouse scale = some wh →
      getRowCount .inventory scale = some (it * wh * inventoryWeeks)) ∧
    inventoryWeeks = ⌈((julianDateMaximum - julianDateMinimum + 1 : Int) : ℚ) / 7⌉ := by
  refine ⟨by decide, ?_, ?_, by decide, by decide, ?_, ?_⟩
  · norm_num [getRowCount, getRowCountBase, Table.getScalingInfo,
      Table.keepsHistory, ScalingInfo.getRowCountForScale, scaleSlot,
      definedScale, interpolate, Option.getD, List.getD]
    decide
  · norm_num [getRowCount, getRowCountBase, Table.getScalingInfo,
      Table.keepsHistory, ScalingInfo.getRowCountForScale, scaleSlot,
      definedScale, interpolate, Option.getD, List.getD]
    decide
  · intro scale it wh hit hwh
    rw [getIdCount, getRowCount, if_neg (by decide)] at hit
    rw [getRowCount, if_neg (by decide)] at hwh
    obtain ⟨irc, hirc, hid⟩ := Option.map_eq_some'.mp hit
    rw [getRowCount, if_pos rfl, scaleInventory, hirc, Option.some_bind, hwh,
      Option.map_some', hid]
  · have h1 : inventoryWeeks = 261 := by decide
    rw [h1, julianDateMaximum, julianDateMinimum]
    norm_num
    symm
    rw [Int.ceil_eq_iff]
    norm_num

/-- C2 witness: the general inventory product relation instantiated at
scale factor 1 (item id-count 9000, warehouse row count 5). -/
theorem c2_row_count_values_witness :
    getRowCount .inventory 1 = some (9000 * 5 * inventoryWeeks) :=
  c2_row_count_values.2.2.2.2.2.1 1 9000 5 (by decide) (by decide)

/-- C5: for the sales tables (and any calendar weight table),
`get_row_count_for_date` returns
`floor((yearly_rows * W[day] + total / 2) / total)` where `W[day]` is the
calendar weight of the date's day-of-year (leap-year variant in leap
years) and `total = max_weight * 5`.  (The row count is nonnegative, so
with nonnegative weights Rust's truncating division is floor division.) -/
theorem c5_date_weighted_row_count (cal : CalendarData) (t : Table)
    (jd : Int) (scale : ℚ) (rc W total : Int)
    (ht : t = .storeSales ∨ t = .catalogSales ∨ t = .webSales)
    (hrc : getRowCount t scale = some rc)
    (hW : W = cal.weightForDayNumber (getIndexForDate (fromJulianDays jd))
        (if isLeapYear (fromJulianDays jd).year then CalendarWeights.salesLeapYear
         else CalendarWeights.sales))
    (htotal : total = cal.maxWeight
        (if isLeapYear (fromJulianDays jd).year then CalendarWeights.salesLeapYear
         else CalendarWeights.sales) * 5)
    (hWnn : 0 ≤ W) (htpos : 0 < total) :
    getRowCountForDate cal t jd scale = some ((rc * W + total / 2) / total) := by
  have hbasis : dateRowCountBasis t scale = some rc := by
    rcases ht with h | h | h <;> subst h <;> exact hrc
  have hrcnn := getRowCount_nonneg t scale rc hrc
  rw [getRowCountForDate, hbasis, Option.some_bind]
  dsimp only
  rw [← hW, ← htotal]
  rw [if_neg (by omega : ¬ total = 0)]
  have h2 : Int.tdiv total 2 = total / 2 :=
    Int.tdiv_eq_ediv (le_of_lt htpos) (by norm_num)
  rw [h2]
  congr 1
  exact Int.tdiv_eq_ediv (by positivity) (le_of_lt htpos)

/-- C5 witness: the date-weighted row count at the constant-weight
calendar, store sales, the first Julian day of the data range and scale
factor 1 (yearly rows 240000, weight 1, total 5). -/
theorem c5_date_weighted_row_count_witness :
    getRowCountForDate unitCalendar .storeSales julianDateMinimum 1 =
      some ((240000 * 1 + (5 : Int) / 2) / 5) :=
  c5_date_weighted_row_count unitCalendar .storeSales julianDateMinimum 1
    240000 1 5 (Or.inl rfl) (by decide) (by decide) (by decide)
    (by norm_num) (by norm_num)

end Tpcds
